import Mathlib

set_option maxRecDepth 8192

/-!
Verification of the retester process-execution and output-retention core
(`lib/retester/retester.py`) against its design description.

The Python code is shallowly embedded: pure fragments become Lean functions,
the side-effecting parts (process lifecycle, filesystem) are modelled by
explicit data (a process's observable exit behaviour, a list of bytes for a
file's contents, a list of `(name, mtime)` pairs for the retention store).
Machine integers are `Int`/`Nat` (Python ints are unbounded, so no wrap-around
is modelled).
-/

set_option autoImplicit false

namespace Retester

/-! ### Exit-code formatting (`format_exit_code`, retester.py lines 80-88)

The Python loop walks `dir(signal)` — the alphabetically sorted attribute
names of the `signal` module — and returns the first name starting with
`"SIG"` whose negated value equals the code.  `signalTable` lists those
attributes (name, value) for CPython 2 on Linux, in `dir()` order; note the
aliases (SIGIOT=SIGABRT, SIGCLD=SIGCHLD, SIGPOLL=SIGIO) and that `SIG_DFL`
and `SIG_IGN` also start with `"SIG"` and are small ints in Python 2. -/

def signalTable : List (String × Int) :=
  [("SIGABRT", 6), ("SIGALRM", 14), ("SIGBUS", 7), ("SIGCHLD", 17),
   ("SIGCLD", 17), ("SIGCONT", 18), ("SIGFPE", 8), ("SIGHUP", 1),
   ("SIGILL", 4), ("SIGINT", 2), ("SIGIO", 29), ("SIGIOT", 6),
   ("SIGKILL", 9), ("SIGPIPE", 13), ("SIGPOLL", 29), ("SIGPROF", 27),
   ("SIGPWR", 30), ("SIGQUIT", 3), ("SIGRTMAX", 64), ("SIGRTMIN", 34),
   ("SIGSEGV", 11), ("SIGSTOP", 19), ("SIGSYS", 31), ("SIGTERM", 15),
   ("SIGTRAP", 5), ("SIGTSTP", 20), ("SIGTTIN", 21), ("SIGTTOU", 22),
   ("SIGURG", 23), ("SIGUSR1", 10), ("SIGUSR2", 12), ("SIGVTALRM", 26),
   ("SIGWINCH", 28), ("SIGXCPU", 24), ("SIGXFSZ", 25),
   ("SIG_DFL", 0), ("SIG_IGN", 1)]

/-- `format_exit_code(code)`: negative codes are looked up in the signal
table (first match in `dir()` order wins); everything else — and negative
codes with no matching signal — renders as `exit code %d`. -/
def format_exit_code (code : Int) : String :=
  if code < 0 then
    match signalTable.find? (fun p => decide (-p.2 = code)) with
    | some p => "signal " ++ p.1
    | none => "exit code " ++ toString code
  else "exit code " ++ toString code

/-! ### Python `repr` of the command string

`run_test` interpolates the command with `"%r"`.  For a `str`, CPython picks
a single quote unless the string contains one (and no double quote), escapes
the backslash and the chosen quote, renders newline/CR/tab as `\n`/`\r`/`\t`,
and other characters outside 32..126 as `\xhh`. -/

def backslashChar : Char := Char.ofNat 92
def squoteChar : Char := Char.ofNat 39
def dquoteChar : Char := Char.ofNat 34

def hexDigitChar (n : Nat) : Char :=
  if n < 10 then Char.ofNat (48 + n) else Char.ofNat (87 + n)

def pyReprCharEsc (q c : Char) : List Char :=
  if c = backslashChar then [backslashChar, backslashChar]
  else if c = q then [backslashChar, c]
  else if c = Char.ofNat 10 then [backslashChar, Char.ofNat 110]
  else if c = Char.ofNat 13 then [backslashChar, Char.ofNat 114]
  else if c = Char.ofNat 9 then [backslashChar, Char.ofNat 116]
  else if c.toNat < 32 ∨ 126 < c.toNat then
    [backslashChar, Char.ofNat 120, hexDigitChar (c.toNat / 16 % 16), hexDigitChar (c.toNat % 16)]
  else [c]

def pyReprStr (s : String) : String :=
  let q := if squoteChar ∈ s.data ∧ dquoteChar ∉ s.data then dquoteChar else squoteChar
  String.mk ([q] ++ s.data.flatMap (pyReprCharEsc q) ++ [q])

/-! ### Results (`Result`, retester.py lines 62-78)

A result is a pass, or a fail carrying a (non-`None`) description. -/

inductive Result where
  | pass
  | fail (description : String)
  deriving DecidableEq

/-! ### `run_test` (retester.py lines 94-224)

The process itself is replaced by its observable exit behaviour.  With no
timeout the harness blocks in `process.wait()`, so the behaviour is just the
final return code.  With a timeout, the harness polls for the timeout window,
then escalates SIGINT → SIGQUIT → SIGKILL-to-the-group with a 1-second wait
after each signal; `TimedProc` records what `process.poll()` reports at each
of those four observation points (`none` = still alive). -/

structure TimedProc where
  exitWithinTimeout : Option Int
  exitAfterInt : Option Int
  exitAfterQuit : Option Int
  diesFromKill : Bool
  deriving DecidableEq

/-- The `timeout is None` branch of `run_test` (lines 126-133). -/
def run_test_no_timeout (command : String) (returncode : Int) : Result :=
  if returncode = 0 then Result.pass
  else Result.fail (pyReprStr command ++ " exited with " ++ format_exit_code returncode ++ ".")

/-- The timeout branch of `run_test` (lines 135-195), as a function of the
process's observable behaviour.  `timeout` is the whole number of seconds
passed by the caller; `"%g"` renders such a value without a decimal point. -/
def run_test_with_timeout (command : String) (timeout : Nat) (p : TimedProc) : Result :=
  match p.exitWithinTimeout with
  | some code =>
      if code = 0 then Result.pass
      else Result.fail (pyReprStr command ++ " exited with " ++ format_exit_code code ++ ".")
  | none =>
      match p.exitAfterInt with
      | some code =>
          Result.fail (pyReprStr command ++ " failed to terminate within " ++ toString timeout ++
            " seconds" ++ ", but exited with " ++ format_exit_code code ++
            " after being sent SIGINT.")
      | none =>
          match p.exitAfterQuit with
          | some code =>
              Result.fail (pyReprStr command ++ " failed to terminate within " ++
                toString timeout ++ " seconds" ++ " and did not respond to SIGINT, " ++
                "but exited with " ++ format_exit_code code ++ " after being sent SIGQUIT.")
          | none =>
              if p.diesFromKill then
                Result.fail (pyReprStr command ++ " failed to terminate within " ++
                  toString timeout ++ " seconds" ++ " and did not respond to SIGINT or SIGQUIT.")
              else
                Result.fail (pyReprStr command ++ " failed to terminate within " ++
                  toString timeout ++ " seconds" ++ " and did not respond to SIGINT or " ++
                  "SIGQUIT. Even SIGKILL had no apparent effect against this monster. " ++
                  "I recommend you terminate it manually, because it\x27s probably still " ++
                  "rampaging through your system.")

/-- `sub` occurs contiguously inside `s`. -/
def StrContains (s sub : String) : Prop := sub.data <:+: s.data

instance (s sub : String) : Decidable (StrContains s sub) := by
  unfold StrContains; infer_instance

/-! ### Temporary-resource guards (retester.py lines 6-60)

`SmartTemporaryFile` / `SmartTemporaryDirectory` own a fresh resource;
`take_file` / `take_dir` transfer ownership (at most once — the second call
raises `ValueError`), and `__del__` deletes the resource only while the guard
still owns it.  The filesystem effect of `__del__` is modelled as a function
from "does the resource exist" to "does it exist afterwards". -/

structure SmartTemporaryFile where
  name : String
  need_to_delete : Bool
  deriving DecidableEq

def SmartTemporaryFile.create (name : String) : SmartTemporaryFile :=
  { name := name, need_to_delete := true }

def SmartTemporaryFile.take_file (f : SmartTemporaryFile) :
    Except String (String × SmartTemporaryFile) :=
  if f.need_to_delete then Except.ok (f.name, { f with need_to_delete := false })
  else Except.error "take_file() called twice."

/-- `__del__` (lines 32-34): `os.remove` runs iff `need_to_delete`. -/
def SmartTemporaryFile.finalize (f : SmartTemporaryFile) (onDisk : Bool) : Bool :=
  if f.need_to_delete then false else onDisk

structure SmartTemporaryDirectory where
  path : String
  need_to_delete : Bool
  deriving DecidableEq

def SmartTemporaryDirectory.create (path : String) : SmartTemporaryDirectory :=
  { path := path, need_to_delete := true }

def SmartTemporaryDirectory.take_dir (d : SmartTemporaryDirectory) :
    Except String (String × SmartTemporaryDirectory) :=
  if d.need_to_delete then Except.ok (d.path, { d with need_to_delete := false })
  else Except.error "take_dir() called twice."

/-- `__del__` (lines 58-60): `shutil.rmtree` runs iff `need_to_delete`. -/
def SmartTemporaryDirectory.finalize (d : SmartTemporaryDirectory) (onDisk : Bool) : Bool :=
  if d.need_to_delete then false else onDisk

/-! ### Output classification (`process_output_file`, retester.py lines 262-330)

A path is either a directory (only its entry list matters) or a regular file,
whose contents are a list of byte values.  The function's return tuples
become `FileReport`; the `("big", beginning, "%d bytes" % n, ending)` tuple
carries the omitted count `n : Int` (the rendering to `"%d bytes"` is
injective, so nothing is lost).  `f.seek(-5000, SEEK_END)` on a file shorter
than 5000 bytes raises `IOError` in Python 2; that path is the `Except.error`
case. -/

inductive FileInput where
  | dirInput (entries : List String)
  | fileInput (bytes : List Nat)

inductive FileReport where
  | other (desc : String)
  | okText (contents : List Nat)
  | bigText (beginning : List Nat) (omitted : Int) (ending : List Nat)
  deriving DecidableEq

/-- The unprintable set: `chr(0)`..`chr(30)` minus `"\r\n\t\v"` (13, 10, 9,
11), plus `chr(127)`.  (`chr(31)` is *not* in `xrange(0, 31)`.) -/
def unprintableByte (b : Nat) : Bool :=
  decide ((b < 31 ∧ b ≠ 9 ∧ b ≠ 10 ∧ b ≠ 11 ∧ b ≠ 13) ∨ b = 127)

def max_size : Nat := 10000
def max_newlines : Nat := 100

/-- `s.split("\n")` on a byte list (newline byte = 10). -/
def splitOnNl : List Nat → List (List Nat)
  | [] => [[]]
  | b :: rest =>
    if b = 10 then [] :: splitOnNl rest
    else
      match splitOnNl rest with
      | [] => [[b]]
      | p :: ps => (b :: p) :: ps

/-- `"\n".join(parts)` on byte lists. -/
def joinNl : List (List Nat) → List Nat
  | [] => []
  | [p] => p
  | p :: q :: ps => p ++ 10 :: joinNl (q :: ps)

/-- Index of the first newline byte, `none` when absent. -/
def findNlIdx : List Nat → Option Nat
  | [] => none
  | b :: rest => if b = 10 then some 0 else (findNlIdx rest).map (fun j => j + 1)

/-- `s.rfind("\n")`: index of the last newline, `none` when absent
(Python returns `-1`). -/
def lastNewlinePos (l : List Nat) : Option Nat :=
  match findNlIdx l.reverse with
  | some j => some (l.length - 1 - j)
  | none => none

/-- `s.find("\n")`: index of the first newline, `none` when absent. -/
def firstNewlinePos (l : List Nat) : Option Nat :=
  findNlIdx l

/-- Lines 308-315: trim the 5000-byte head sample.  Fewer than 50 newlines:
cut at the last newline when it falls in the final ~200 bytes; otherwise keep
only the first 50 lines. -/
def trim_beginning (x : List Nat) : List Nat :=
  if x.count 10 < max_newlines / 2 then
    match lastNewlinePos x with
    | some idx => if idx > max_size / 2 - 200 then x.take idx else x
    | none => x
  else joinNl ((splitOnNl x).take (max_newlines / 2))

/-- Lines 318-326: trim the 5000-byte tail sample symmetrically
(`parts[-50:]` of a shorter list is the whole list, matching `List.drop`
with a truncated subtraction). -/
def trim_ending (x : List Nat) : List Nat :=
  if x.count 10 < max_newlines / 2 then
    match firstNewlinePos x with
    | some idx => if idx < 200 then x.drop (idx + 1) else x
    | none => x
  else joinNl ((splitOnNl x).drop ((splitOnNl x).length - max_newlines / 2))

def process_output_file (input : FileInput) : Except String FileReport :=
  match input with
  | FileInput.dirInput entries =>
      Except.ok (FileReport.other
        ("directory with " ++ toString entries.length ++ " files/subdirs"))
  | FileInput.fileInput bytes =>
      -- lines 276-281: sample the first 1024 bytes for unprintables
      if (bytes.take 1024).any unprintableByte then Except.ok (FileReport.other "binary file")
      else if bytes.length = 0 then Except.ok (FileReport.other "empty file")
      else if bytes.length < max_size ∧ bytes.count 10 < max_newlines then
        Except.ok (FileReport.okText bytes)
      -- line 318: f.seek(-5000, SEEK_END) raises IOError on a shorter file
      else if bytes.length < max_size / 2 then
        Except.error "IOError: [Errno 22] Invalid argument"
      else
        Except.ok (FileReport.bigText
          (trim_beginning (bytes.take (max_size / 2)))
          ((bytes.length : Int) -
            (trim_beginning (bytes.take (max_size / 2))).length -
            (trim_ending (bytes.drop (bytes.length - max_size / 2))).length)
          (trim_ending (bytes.drop (bytes.length - max_size / 2))))

/-! ### Output retention (`process_output_dir`, retester.py lines 332-364)

The retention root is modelled by its list of entries, each a directory name
with its modification time.  The code only ever creates decimal-integer
names (`str(i)`), and `str` is injective on ints, so names are carried as the
integers themselves.  The sweep (lines 346-350) deletes entries strictly
older than the 24-hour lifetime; then (lines 353-356) the first unused index
starting from 1 names the new entry, and the failing run's directory is
renamed into place.  The moved directory was created during the current
invocation, so its modification time is the current time. -/

def retest_output_dir_subdir_lifetime : Int := 60 * 60 * 24

def expire_old_entries (now : Int) (entries : List (Nat × Int)) : List (Nat × Int) :=
  entries.filter (fun e => !decide (now - e.2 > retest_output_dir_subdir_lifetime))

/-- The `i = 1; while exists(str(i)): i += 1` loop.  `names.length + 1`
candidates always suffice to find an unused one. -/
def pickNameAux (names : List Nat) : Nat → Nat → Nat
  | 0, i => i
  | fuel + 1, i => if i ∈ names then pickNameAux names fuel (i + 1) else i

def pickName (names : List Nat) : Nat := pickNameAux names (names.length + 1) 1

def process_output_dir (now : Int) (entries : List (Nat × Int)) :
    List (Nat × Int) × Nat :=
  let kept := expire_old_entries now entries
  let i := pickName (kept.map Prod.fst)
  (kept ++ [(i, now)], i)

/-! ### Command-line construction (`do_test`, retester.py lines 226-246)

A mapping value is either a Python `bool` or anything else, rendered with
`str`.  For each argument the code first appends one space, then the
formatted argument — which is empty for a gnu-style `False` flag. -/

inductive ArgValue where
  | boolVal (b : Bool)
  | strVal (s : String)

/-- `str(value)` for the two modelled value shapes. -/
def str_of_arg : ArgValue → String
  | ArgValue.boolVal true => "True"
  | ArgValue.boolVal false => "False"
  | ArgValue.strVal s => s

/-- The gnu-style rendering of one argument (lines 235-239). -/
def gnu_arg_text (name : String) : ArgValue → String
  | ArgValue.boolVal b => if b then "--" ++ name else ""
  | ArgValue.strVal s => "--" ++ name ++ " " ++ s

/-- The make-style rendering of one argument (line 242). -/
def make_arg_text (name : String) (v : ArgValue) : String :=
  name ++ "=" ++ str_of_arg v

def build_command_gnu (cmd : String) (args : List (String × ArgValue)) : String :=
  args.foldl (fun acc a => acc ++ " " ++ gnu_arg_text a.1 a.2) cmd

def build_command_make (cmd : String) (args : List (String × ArgValue)) : String :=
  args.foldl (fun acc a => acc ++ " " ++ make_arg_text a.1 a.2) cmd

/-- Count of space characters in a string. -/
def spaceCount (s : String) : Nat := s.data.count (Char.ofNat 32)

/-- Every character of `s` is printable ASCII and needs no `repr` escaping. -/
def PlainStr (s : String) : Prop :=
  ∀ c ∈ s.data, 32 ≤ c.toNat ∧ c.toNat ≤ 126 ∧
    c ≠ backslashChar ∧ c ≠ squoteChar ∧ c ≠ dquoteChar

instance (s : String) : Decidable (PlainStr s) := by
  unfold PlainStr; infer_instance

/-! ## Supporting lemmas -/

theorem strContains_of_data (s sub : String) (pre post : List Char)
    (h : pre ++ sub.data ++ post = s.data) : StrContains s sub :=
  ⟨pre, post, h⟩

theorem flatMap_eq_self {α : Type} (l : List α) (f : α → List α)
    (h : ∀ c ∈ l, f c = [c]) : l.flatMap f = l := by
  induction l with
  | nil => rfl
  | cons a l ih =>
      rw [List.flatMap_cons, h a (List.mem_cons_self a l),
        ih (fun c hc => h c (List.mem_cons_of_mem a hc))]
      rfl

theorem pyReprCharEsc_plain (c : Char)
    (h : 32 ≤ c.toNat ∧ c.toNat ≤ 126 ∧
      c ≠ backslashChar ∧ c ≠ squoteChar ∧ c ≠ dquoteChar) :
    pyReprCharEsc squoteChar c = [c] := by
  obtain ⟨h1, h2, hb, hq, -⟩ := h
  unfold pyReprCharEsc
  rw [if_neg hb, if_neg hq, if_neg ?h10, if_neg ?h13, if_neg ?h9, if_neg ?hrange]
  case h10 => intro hc; rw [hc] at h1; exact absurd h1 (by decide)
  case h13 => intro hc; rw [hc] at h1; exact absurd h1 (by decide)
  case h9 => intro hc; rw [hc] at h1; exact absurd h1 (by decide)
  case hrange => omega

theorem pyReprStr_plain (s : String) (h : PlainStr s) :
    pyReprStr s = String.mk ([squoteChar] ++ s.data ++ [squoteChar]) := by
  unfold pyReprStr
  rw [if_neg ?hq]
  case hq =>
    intro hmem
    exact absurd rfl (h squoteChar hmem.1).2.2.2.1
  show String.mk ([squoteChar] ++ s.data.flatMap (pyReprCharEsc squoteChar) ++ [squoteChar]) = _
  rw [flatMap_eq_self s.data _ (fun c hc => pyReprCharEsc_plain c (h c hc))]

/-- Two appended strings differ when their right parts end differently
within the last `k` characters. -/
theorem str_append_ne (A B S T : String) (k : Nat)
    (hs : k ≤ S.data.length) (ht : k ≤ T.data.length)
    (hne : S.data.reverse.take k ≠ T.data.reverse.take k) : A ++ S ≠ B ++ T := by
  intro h
  apply hne
  have hdata : S.data.reverse ++ A.data.reverse = T.data.reverse ++ B.data.reverse := by
    have : (A ++ S).data = (B ++ T).data := by rw [h]
    rw [String.data_append, String.data_append] at this
    rw [← List.reverse_append, ← List.reverse_append, this]
  have h2 := congrArg (List.take k) hdata
  rwa [List.take_append_of_le_length (by simpa using hs),
    List.take_append_of_le_length (by simpa using ht)] at h2

theorem result_fail_ne (d1 d2 : String) (h : d1 ≠ d2) :
    Result.fail d1 ≠ Result.fail d2 := by
  intro hh
  exact h (Result.fail.injEq d1 d2 ▸ congrArg (fun r => r) hh ▸ rfl)

theorem strContains_parts (x y z : String) : StrContains (x ++ y ++ z) y :=
  ⟨x.data, z.data, by simp [String.data_append]⟩

theorem strContains_suffix (x y : String) : StrContains (x ++ y) y :=
  ⟨x.data, [], by simp [String.data_append]⟩

/-! ## Claims -/

/-- C1: with no timeout, exit code 0 yields a pass; a nonzero exit code
yields a fail whose description contains the command text and the exit
indicator, where nonnegative codes render as `exit code N`, negative codes
resolve to a matching signal name from the signal table, and unresolved
negative codes fall back to the raw numeric code. -/
theorem c1_no_timeout_result (cmd : String) (code : Int) :
    (code = 0 → run_test_no_timeout cmd code = Result.pass) ∧
    (code ≠ 0 → run_test_no_timeout cmd code =
      Result.fail (pyReprStr cmd ++ " exited with " ++ format_exit_code code ++ ".")) ∧
    (0 ≤ code → format_exit_code code = "exit code " ++ toString code) ∧
    (code < 0 → ∀ p ∈ signalTable, -p.2 = code →
      ∃ p2 ∈ signalTable, -p2.2 = code ∧ format_exit_code code = "signal " ++ p2.1) ∧
    (code < 0 → (∀ p ∈ signalTable, -p.2 ≠ code) →
      format_exit_code code = "exit code " ++ toString code) ∧
    (code ≠ 0 → PlainStr cmd →
      StrContains (pyReprStr cmd ++ " exited with " ++ format_exit_code code ++ ".") cmd ∧
      StrContains (pyReprStr cmd ++ " exited with " ++ format_exit_code code ++ ".")
        (format_exit_code code)) := by
  refine ⟨?_, ?_, ?_, ?_, ?_, ?_⟩
  · intro h; simp [run_test_no_timeout, h]
  · intro h; simp [run_test_no_timeout, h]
  · intro h; unfold format_exit_code; rw [if_neg (by omega)]
  · intro hneg p hp hpc
    have hsome : (signalTable.find? (fun p => decide (-p.2 = code))).isSome := by
      rw [List.find?_isSome]
      exact ⟨p, hp, by simp [hpc]⟩
    obtain ⟨p0, hp0⟩ := Option.isSome_iff_exists.mp hsome
    refine ⟨p0, List.mem_of_find?_eq_some hp0, by simpa using List.find?_some hp0, ?_⟩
    unfold format_exit_code
    rw [if_pos hneg, hp0]
  · intro hneg hnone
    have hfn : signalTable.find? (fun p => decide (-p.2 = code)) = none := by
      rw [List.find?_eq_none]
      intro p hp
      simpa using hnone p hp
    unfold format_exit_code
    rw [if_pos hneg, hfn]
  · intro hne hplain
    constructor
    · refine strContains_of_data _ _ [squoteChar]
        ([squoteChar] ++ (" exited with " ++ format_exit_code code ++ ".").data) ?_
      rw [pyReprStr_plain cmd hplain]
      simp [String.data_append]
    · exact strContains_parts (pyReprStr cmd ++ " exited with ") (format_exit_code code) "."

/-- C1 witness: concrete instances of the no-timeout result mapping. -/
theorem c1_witness :
    ((1 : Int) ≠ 0) ∧ PlainStr "false" ∧
    run_test_no_timeout "false" 1 =
      Result.fail (pyReprStr "false" ++ " exited with " ++ format_exit_code 1 ++ ".") ∧
    StrContains (pyReprStr "false" ++ " exited with " ++ format_exit_code 1 ++ ".") "false" ∧
    (∃ p2 ∈ signalTable, -p2.2 = (-15 : Int) ∧
      format_exit_code (-15) = "signal " ++ p2.1) ∧
    format_exit_code (-77) = "exit code " ++ toString (-77 : Int) :=
  ⟨by decide, by decide,
   (c1_no_timeout_result "false" 1).2.1 (by decide),
   ((c1_no_timeout_result "false" 1).2.2.2.2.2 (by decide) (by decide)).1,
   (c1_no_timeout_result "false" (-15)).2.2.2.1 (by decide) ("SIGTERM", 15)
     (by decide) (by decide),
   (c1_no_timeout_result "false" (-77)).2.2.2.2.1 (by decide) (by decide)⟩

/-- C2: a process that outlives the timeout window but exits within the
1-second wait after SIGINT always yields a Failed result — regardless of the
exit code it finally returned — and the description names the SIGINT stage
as the one that worked. -/
theorem c2_graceful_stage_failed (cmd : String) (T : Nat) (c : Int)
    (q : Option Int) (k : Bool) :
    run_test_with_timeout cmd T ⟨none, some c, q, k⟩ =
      Result.fail (pyReprStr cmd ++ " failed to terminate within " ++ toString T ++
        " seconds" ++ ", but exited with " ++ format_exit_code c ++
        " after being sent SIGINT.") ∧
    run_test_with_timeout cmd T ⟨none, some c, q, k⟩ ≠ Result.pass ∧
    StrContains (pyReprStr cmd ++ " failed to terminate within " ++ toString T ++
        " seconds" ++ ", but exited with " ++ format_exit_code c ++
        " after being sent SIGINT.") " after being sent SIGINT." ∧
    StrContains (pyReprStr cmd ++ " failed to terminate within " ++ toString T ++
        " seconds" ++ ", but exited with " ++ format_exit_code c ++
        " after being sent SIGINT.") (toString T ++ " seconds") := by
  refine ⟨rfl, by simp [run_test_with_timeout], ?_, ?_⟩
  · exact strContains_suffix _ _
  · have h : pyReprStr cmd ++ " failed to terminate within " ++ toString T ++
        " seconds" ++ ", but exited with " ++ format_exit_code c ++
        " after being sent SIGINT." =
        (pyReprStr cmd ++ " failed to terminate within ") ++
        (toString T ++ " seconds") ++
        (", but exited with " ++ format_exit_code c ++ " after being sent SIGINT.") := by
      simp only [String.append_assoc]
    rw [h]
    exact strContains_parts _ _ _

/-- C3 counterexample: when only the forceful group kill works, the Failed
description does not name SIGKILL (it names only the two failed stages), so
the claim that each succeeding stage's description names the stage that
worked is false at this input. -/
theorem c3_counterexample :
    run_test_with_timeout "x" 10 ⟨none, none, none, true⟩ =
      Result.fail ("\x27x\x27 failed to terminate within 10 seconds and did not " ++
        "respond to SIGINT or SIGQUIT.") ∧
    ¬ StrContains ("\x27x\x27 failed to terminate within 10 seconds and did not " ++
        "respond to SIGINT or SIGQUIT.") "SIGKILL" := by
  decide

/-- C3 (amended): the four escalation outcomes produce pairwise distinct
Failed descriptions, each naming the elapsed timeout; the SIGINT and SIGQUIT
stages name the signal that worked, but the forceful-kill stage's
description only reports that SIGINT and SIGQUIT failed, without naming
SIGKILL. -/
theorem c3_stage_descriptions (cmd : String) (T : Nat) (ci cq : Int) :
    ∃ d1 d2 d3 d4,
      run_test_with_timeout cmd T ⟨none, some ci, none, false⟩ = Result.fail d1 ∧
      run_test_with_timeout cmd T ⟨none, none, some cq, false⟩ = Result.fail d2 ∧
      run_test_with_timeout cmd T ⟨none, none, none, true⟩ = Result.fail d3 ∧
      run_test_with_timeout cmd T ⟨none, none, none, false⟩ = Result.fail d4 ∧
      (d1 ≠ d2 ∧ d1 ≠ d3 ∧ d1 ≠ d4 ∧ d2 ≠ d3 ∧ d2 ≠ d4 ∧ d3 ≠ d4) ∧
      (StrContains d1 (toString T ++ " seconds") ∧
       StrContains d2 (toString T ++ " seconds") ∧
       StrContains d3 (toString T ++ " seconds") ∧
       StrContains d4 (toString T ++ " seconds")) ∧
      StrContains d1 " after being sent SIGINT." ∧
      StrContains d2 " after being sent SIGQUIT." ∧
      d3 = pyReprStr cmd ++ " failed to terminate within " ++ toString T ++
        " seconds" ++ " and did not respond to SIGINT or SIGQUIT." := by
  refine ⟨_, _, _, _, rfl, rfl, rfl, rfl, ⟨?_, ?_, ?_, ?_, ?_, ?_⟩, ⟨?_, ?_, ?_, ?_⟩,
    ?_, ?_, rfl⟩
  · exact str_append_ne _ _ " after being sent SIGINT."
      (" after being sent SIGQUIT.") 8 (by decide) (by decide) (by decide)
  · exact str_append_ne _ _ " after being sent SIGINT."
      (" and did not respond to SIGINT or SIGQUIT.") 8 (by decide) (by decide) (by decide)
  · exact str_append_ne _ _ " after being sent SIGINT."
      "rampaging through your system." 8 (by decide) (by decide) (by decide)
  · exact str_append_ne _ _ " after being sent SIGQUIT."
      (" and did not respond to SIGINT or SIGQUIT.") 10 (by decide) (by decide) (by decide)
  · exact str_append_ne _ _ " after being sent SIGQUIT."
      "rampaging through your system." 8 (by decide) (by decide) (by decide)
  · exact str_append_ne _ _ " and did not respond to SIGINT or SIGQUIT."
      "rampaging through your system." 8 (by decide) (by decide) (by decide)
  · have h : pyReprStr cmd ++ " failed to terminate within " ++ toString T ++
        " seconds" ++ ", but exited with " ++ format_exit_code ci ++
        " after being sent SIGINT." =
        (pyReprStr cmd ++ " failed to terminate within ") ++
        (toString T ++ " seconds") ++
        (", but exited with " ++ format_exit_code ci ++ " after being sent SIGINT.") := by
      simp only [String.append_assoc]
    rw [h]; exact strContains_parts _ _ _
  · have h : pyReprStr cmd ++ " failed to terminate within " ++ toString T ++
        " seconds" ++ " and did not respond to SIGINT, " ++ "but exited with " ++
        format_exit_code cq ++ " after being sent SIGQUIT." =
        (pyReprStr cmd ++ " failed to terminate within ") ++
        (toString T ++ " seconds") ++
        (" and did not respond to SIGINT, " ++ "but exited with " ++
          format_exit_code cq ++ " after being sent SIGQUIT.") := by
      simp only [String.append_assoc]
    rw [h]; exact strContains_parts _ _ _
  · have h : pyReprStr cmd ++ " failed to terminate within " ++ toString T ++
        " seconds" ++ " and did not respond to SIGINT or SIGQUIT." =
        (pyReprStr cmd ++ " failed to terminate within ") ++
        (toString T ++ " seconds") ++ " and did not respond to SIGINT or SIGQUIT." := by
      simp only [String.append_assoc]
    rw [h]; exact strContains_parts _ _ _
  · have h : pyReprStr cmd ++ " failed to terminate within " ++ toString T ++
        " seconds" ++ " and did not respond to SIGINT or " ++
        "SIGQUIT. Even SIGKILL had no apparent effect against this monster. " ++
        "I recommend you terminate it manually, because it\x27s probably still " ++
        "rampaging through your system." =
        (pyReprStr cmd ++ " failed to terminate within ") ++
        (toString T ++ " seconds") ++
        (" and did not respond to SIGINT or " ++
          "SIGQUIT. Even SIGKILL had no apparent effect against this monster. " ++
          "I recommend you terminate it manually, because it\x27s probably still " ++
          "rampaging through your system.") := by
      simp only [String.append_assoc]
    rw [h]; exact strContains_parts _ _ _
  · exact strContains_suffix _ _
  · exact strContains_suffix _ _

/-- C6: transferring ownership of a temporary file or directory a second
time fails with the double-transfer `ValueError`; after one successful
transfer the guard's destructor performs no deletion, so the resource is
still on disk. -/
theorem c6_ownership_transfer (fname dpath : String) (onDisk : Bool) :
    (SmartTemporaryFile.create fname).take_file =
      Except.ok (fname, ⟨fname, false⟩) ∧
    (SmartTemporaryFile.mk fname false).take_file =
      Except.error "take_file() called twice." ∧
    (SmartTemporaryFile.mk fname false).finalize true = true ∧
    (SmartTemporaryFile.create fname).finalize onDisk = false ∧
    (SmartTemporaryDirectory.create dpath).take_dir =
      Except.ok (dpath, ⟨dpath, false⟩) ∧
    (SmartTemporaryDirectory.mk dpath false).take_dir =
      Except.error "take_dir() called twice." ∧
    (SmartTemporaryDirectory.mk dpath false).finalize true = true ∧
    (SmartTemporaryDirectory.create dpath).finalize onDisk = false :=
  ⟨rfl, rfl, rfl, rfl, rfl, rfl, rfl, rfl⟩

/-- C7: the sweep keeps exactly the entries within the 24-hour lifetime —
an entry is deleted iff it is strictly older than the TTL — and the entry
created by the current invocation is appended after the sweep, so that
invocation's sweep never deletes it. -/
theorem c7_sweep_exact (now : Int) (entries : List (Nat × Int)) :
    (∀ e : Nat × Int, e ∈ expire_old_entries now entries ↔
      (e ∈ entries ∧ now - e.2 ≤ retest_output_dir_subdir_lifetime)) ∧
    (process_output_dir now entries).1 =
      expire_old_entries now entries ++ [((process_output_dir now entries).2, now)] ∧
    ((process_output_dir now entries).2, now) ∈ (process_output_dir now entries).1 := by
  refine ⟨?_, rfl, ?_⟩
  · intro e
    simp only [expire_old_entries, List.mem_filter, Bool.not_eq_eq_eq_not, Bool.not_true,
      decide_eq_false_iff_not, not_lt]
  · show _ ∈ expire_old_entries now entries ++ [_]
    exact List.mem_append_right _ (List.mem_singleton_self _)

theorem pickNameAux_spec (names : List Nat) :
    ∀ (fuel i : Nat), (∃ j, i ≤ j ∧ j < i + fuel ∧ j ∉ names) →
      pickNameAux names fuel i ∉ names ∧ i ≤ pickNameAux names fuel i ∧
      ∀ j, i ≤ j → j < pickNameAux names fuel i → j ∈ names := by
  intro fuel
  induction fuel with
  | zero =>
      rintro i ⟨j, hij, hj, -⟩
      omega
  | succ fuel ih =>
      rintro i ⟨j, hij, hjf, hjn⟩
      have hstep : pickNameAux names (fuel + 1) i =
          if i ∈ names then pickNameAux names fuel (i + 1) else i := rfl
      rw [hstep]
      by_cases hi : i ∈ names
      · rw [if_pos hi]
        have hji : i ≠ j := fun h => hjn (h ▸ hi)
        obtain ⟨h1, h2, h3⟩ := ih (i + 1) ⟨j, by omega, by omega, hjn⟩
        refine ⟨h1, by omega, fun j2 hj2 hj2' => ?_⟩
        rcases Nat.eq_or_lt_of_le hj2 with he | hl
        · exact he ▸ hi
        · exact h3 j2 hl hj2'
      · rw [if_neg hi]
        exact ⟨hi, Nat.le_refl i, fun j2 h1 h2 => absurd (Nat.lt_of_le_of_lt h1 h2)
          (Nat.lt_irrefl i)⟩

theorem exists_unused (names : List Nat) :
    ∃ j, 1 ≤ j ∧ j < 1 + (names.length + 1) ∧ j ∉ names := by
  by_contra h
  push_neg at h
  have hsub : (List.range' 1 (names.length + 1)).toFinset ⊆ names.toFinset := by
    intro x hx
    rw [List.mem_toFinset] at hx ⊢
    rw [List.mem_range'_1] at hx
    exact h x hx.1 (by omega)
  have h1 : (List.range' 1 (names.length + 1)).toFinset.card = names.length + 1 := by
    rw [List.toFinset_card_of_nodup (List.nodup_range' _ _)]
    exact List.length_range' _ _ _
  have h2 := Finset.card_le_card hsub
  have h3 := List.toFinset_card_le names
  omega

theorem pickName_spec (names : List Nat) :
    pickName names ∉ names ∧ 1 ≤ pickName names ∧
    ∀ j, 1 ≤ j → j < pickName names → j ∈ names :=
  pickNameAux_spec names (names.length + 1) 1 (exists_unused names)

theorem pickName_append_gt (names : List Nat) :
    pickName names < pickName (names ++ [pickName names]) := by
  obtain ⟨ha, hb, hc⟩ := pickName_spec (names ++ [pickName names])
  obtain ⟨-, hb1, hc1⟩ := pickName_spec names
  by_contra hle
  push_neg at hle
  rcases Nat.eq_or_lt_of_le hle with he | hlt
  · apply ha
    rw [he]
    exact List.mem_append_right _ (List.mem_singleton_self _)
  · exact ha (List.mem_append_left _ (hc1 _ hb hlt))

/-- C8 counterexample: an invocation at time 0 on an empty store names its
archive `1`; a second invocation 25 hours later first evicts that entry and
then reuses the name `1`, so archive names are not increasing across
successive invocations. -/
theorem c8_counterexample :
    (process_output_dir 0 []).1 = [(1, 0)] ∧
    (process_output_dir 0 []).2 = 1 ∧
    (process_output_dir 90000 [(1, 0)]).2 = 1 ∧
    ¬ (process_output_dir 0 []).2 < (process_output_dir 90000 [(1, 0)]).2 := by
  decide

/-- C8 (amended): the new archive gets the smallest positive integer name
unused after the sweep, and names do strictly increase across successive
invocations provided the second invocation's sweep evicts nothing. -/
theorem c8_allocation (names : List Nat) (entries : List (Nat × Int)) (now1 now2 : Int) :
    (pickName names ∉ names ∧ 1 ≤ pickName names ∧
      ∀ j, 1 ≤ j → j < pickName names → j ∈ names) ∧
    (expire_old_entries now2 (process_output_dir now1 entries).1 =
        (process_output_dir now1 entries).1 →
      (process_output_dir now1 entries).2 <
        (process_output_dir now2 (process_output_dir now1 entries).1).2) := by
  refine ⟨pickName_spec names, ?_⟩
  intro hkeep
  have h2 : (process_output_dir now2 (process_output_dir now1 entries).1).2 =
      pickName ((expire_old_entries now2 (process_output_dir now1 entries).1).map Prod.fst) :=
    rfl
  rw [h2, hkeep]
  have h1 : ((process_output_dir now1 entries).1).map Prod.fst =
      (expire_old_entries now1 entries).map Prod.fst ++
        [(process_output_dir now1 entries).2] := by
    rw [show (process_output_dir now1 entries).1 =
      expire_old_entries now1 entries ++ [((process_output_dir now1 entries).2, now1)]
      from rfl]
    simp
  rw [h1]
  rw [show (process_output_dir now1 entries).2 =
    pickName ((expire_old_entries now1 entries).map Prod.fst) from rfl]
  exact pickName_append_gt _

/-- C8 witness: with no eviction between two invocations the second name is
strictly larger. -/
theorem c8_witness :
    expire_old_entries 1 (process_output_dir 0 []).1 = (process_output_dir 0 []).1 ∧
    (process_output_dir 0 []).2 < (process_output_dir 1 (process_output_dir 0 []).1).2 :=
  ⟨by decide, (c8_allocation [] [] 0 1).2 (by decide)⟩

theorem build_gnu_append (cmd : String) (l1 l2 : List (String × ArgValue)) :
    build_command_gnu cmd (l1 ++ l2) = build_command_gnu (build_command_gnu cmd l1) l2 := by
  simp [build_command_gnu, List.foldl_append]

theorem build_gnu_length (l : List (String × ArgValue)) : ∀ acc : String,
    (build_command_gnu acc l).length =
      acc.length + (l.map (fun a => 1 + (gnu_arg_text a.1 a.2).length)).sum := by
  induction l with
  | nil => intro acc; simp [build_command_gnu]
  | cons a l ih =>
      intro acc
      show (build_command_gnu (acc ++ " " ++ gnu_arg_text a.1 a.2) l).length = _
      rw [ih, String.length_append, String.length_append]
      have hone : (" " : String).length = 1 := rfl
      rw [hone, List.map_cons, List.sum_cons]
      omega

theorem spaceCount_append (a b : String) :
    spaceCount (a ++ b) = spaceCount a + spaceCount b := by
  simp [spaceCount, String.data_append, List.count_append]

theorem build_gnu_spaces (l : List (String × ArgValue)) : ∀ acc : String,
    spaceCount (build_command_gnu acc l) =
      spaceCount acc + (l.map (fun a => 1 + spaceCount (gnu_arg_text a.1 a.2))).sum := by
  induction l with
  | nil => intro acc; simp [build_command_gnu]
  | cons a l ih =>
      intro acc
      show spaceCount (build_command_gnu (acc ++ " " ++ gnu_arg_text a.1 a.2) l) = _
      rw [ih, spaceCount_append, spaceCount_append]
      have hone : spaceCount " " = 1 := by decide
      rw [hone, List.map_cons, List.sum_cons]
      omega

/-- C10: a gnu-style argument whose value is `False` contributes no flag
text but still gets the one-space separator, so the built command line has
one extra space and differs from the command built without that argument. -/
theorem c10_false_flag (cmd nm : String) (pre post : List (String × ArgValue)) :
    build_command_gnu cmd (pre ++ (nm, ArgValue.boolVal false) :: post) =
      build_command_gnu (build_command_gnu cmd pre ++ " " ++ "") post ∧
    (build_command_gnu cmd (pre ++ (nm, ArgValue.boolVal false) :: post)).length =
      (build_command_gnu cmd (pre ++ post)).length + 1 ∧
    spaceCount (build_command_gnu cmd (pre ++ (nm, ArgValue.boolVal false) :: post)) =
      spaceCount (build_command_gnu cmd (pre ++ post)) + 1 ∧
    build_command_gnu cmd (pre ++ (nm, ArgValue.boolVal false) :: post) ≠
      build_command_gnu cmd (pre ++ post) := by
  have hlen : (build_command_gnu cmd (pre ++ (nm, ArgValue.boolVal false) :: post)).length =
      (build_command_gnu cmd (pre ++ post)).length + 1 := by
    rw [build_gnu_length, build_gnu_length]
    simp [List.map_append, List.sum_append, gnu_arg_text]
    omega
  refine ⟨?_, hlen, ?_, ?_⟩
  · rw [build_gnu_append]
    rfl
  · rw [build_gnu_spaces, build_gnu_spaces]
    simp [List.map_append, List.sum_append, gnu_arg_text]
    have : spaceCount "" = 0 := by decide
    omega
  · intro h
    have := congrArg String.length h
    omega

/-! ## Lemmas about `splitOnNl` / `joinNl` and the head/tail trimming -/

theorem splitOnNl_ne_nil (l : List Nat) : splitOnNl l ≠ [] := by
  cases l with
  | nil => simp [splitOnNl]
  | cons b rest =>
      by_cases hb : b = 10
      · simp [splitOnNl, hb]
      · cases h : splitOnNl rest with
        | nil => simp [splitOnNl, hb, h]
        | cons p ps => simp [splitOnNl, hb, h]

theorem joinNl_cons (p : List Nat) (ps : List (List Nat)) (h : ps ≠ []) :
    joinNl (p :: ps) = p ++ 10 :: joinNl ps := by
  cases ps with
  | nil => exact absurd rfl h
  | cons q ps2 => rfl

theorem splitOnNl_length (l : List Nat) : (splitOnNl l).length = l.count 10 + 1 := by
  induction l with
  | nil => simp [splitOnNl]
  | cons b rest ih =>
      by_cases hb : b = 10
      · subst hb
        rw [show splitOnNl (10 :: rest) = [] :: splitOnNl rest from by simp [splitOnNl]]
        simp [List.count_cons, ih]
      · cases h : splitOnNl rest with
        | nil => exact absurd h (splitOnNl_ne_nil rest)
        | cons p ps =>
            rw [show splitOnNl (b :: rest) = (b :: p) :: ps from by simp [splitOnNl, hb, h]]
            rw [h] at ih
            simp only [List.length_cons] at ih ⊢
            rw [List.count_cons]
            simp [hb, ih]

theorem splitOnNl_parts_count (l : List Nat) :
    ∀ p ∈ splitOnNl l, p.count 10 = 0 := by
  induction l with
  | nil =>
      intro p hp
      simp [splitOnNl] at hp
      simp [hp]
  | cons b rest ih =>
      intro p hp
      by_cases hb : b = 10
      · rw [show splitOnNl (b :: rest) = [] :: splitOnNl rest from by simp [splitOnNl, hb]]
          at hp
        rcases List.mem_cons.mp hp with h0 | h0
        · simp [h0]
        · exact ih p h0
      · cases h : splitOnNl rest with
        | nil => exact absurd h (splitOnNl_ne_nil rest)
        | cons p0 ps0 =>
            rw [show splitOnNl (b :: rest) = (b :: p0) :: ps0 from by simp [splitOnNl, hb, h]]
              at hp
            rcases List.mem_cons.mp hp with h0 | h0
            · have hp0 : p0.count 10 = 0 := ih p0 (by rw [h]; exact List.mem_cons_self _ _)
              rw [h0, List.count_cons]
              simp [hb, hp0]
            · exact ih p (by rw [h]; exact List.mem_cons_of_mem _ h0)

theorem joinNl_splitOnNl (l : List Nat) : joinNl (splitOnNl l) = l := by
  induction l with
  | nil => rfl
  | cons b rest ih =>
      by_cases hb : b = 10
      · subst hb
        rw [show splitOnNl (10 :: rest) = [] :: splitOnNl rest from by simp [splitOnNl]]
        rw [joinNl_cons [] _ (splitOnNl_ne_nil rest), ih]
        rfl
      · cases h : splitOnNl rest with
        | nil => exact absurd h (splitOnNl_ne_nil rest)
        | cons p ps =>
            rw [show splitOnNl (b :: rest) = (b :: p) :: ps from by simp [splitOnNl, hb, h]]
            cases ps with
            | nil =>
                have hp : p = rest := by rw [← ih, h]; rfl
                simp [joinNl, hp]
            | cons q ps2 =>
                have hih : p ++ 10 :: joinNl (q :: ps2) = rest := by
                  rw [← ih, h, joinNl_cons p _ (by simp)]
                show (b :: p) ++ 10 :: joinNl (q :: ps2) = b :: rest
                rw [List.cons_append, hih]

theorem joinNl_take_drop (ps : List (List Nat)) :
    ∀ k : Nat, 0 < k → k < ps.length →
      joinNl ps = joinNl (ps.take k) ++ 10 :: joinNl (ps.drop k) := by
  induction ps with
  | nil => intro k _ hk; simp at hk
  | cons p ps ih =>
      intro k hk0 hk
      cases k with
      | zero => omega
      | succ k2 =>
          rw [List.take_succ_cons, List.drop_succ_cons]
          rcases Nat.eq_zero_or_pos k2 with h0 | hpos
          · subst h0
            simp only [List.take_zero, List.drop_zero]
            have hps : ps ≠ [] := by
              intro hh
              rw [hh] at hk
              simp at hk
            rw [joinNl_cons p ps hps]
            rfl
          · have hlen : k2 < ps.length := by
              simp only [List.length_cons] at hk
              omega
            have hps : ps ≠ [] := by
              intro hh
              rw [hh] at hlen
              simp at hlen
            rw [joinNl_cons p ps hps, ih k2 hpos hlen]
            have htk : ps.take k2 ≠ [] := by
              intro hh
              rcases List.take_eq_nil_iff.mp hh with h1 | h1
              · omega
              · exact hps h1
            rw [joinNl_cons p (ps.take k2) htk]
            simp [List.append_assoc]

theorem joinNl_count (ps : List (List Nat)) :
    ps ≠ [] → (∀ p ∈ ps, p.count 10 = 0) → (joinNl ps).count 10 = ps.length - 1 := by
  induction ps with
  | nil => intro hps _; exact absurd rfl hps
  | cons p ps ih =>
      intro _ h
      cases ps with
      | nil => simp [joinNl, h p (by simp)]
      | cons q ps2 =>
          rw [joinNl_cons p _ (by simp)]
          have hrest := ih (by simp) (fun x hx => h x (List.mem_cons_of_mem p hx))
          rw [List.count_append, List.count_cons]
          simp only [List.length_cons] at hrest ⊢
          simp [h p (by simp), hrest]

theorem trim_beginning_sub (x : List Nat) : trim_beginning x <+: x := by
  unfold trim_beginning
  by_cases hc : x.count 10 < max_newlines / 2
  · rw [if_pos hc]
    cases h : lastNewlinePos x with
    | none => exact List.prefix_refl x
    | some idx =>
        show (if idx > max_size / 2 - 200 then x.take idx else x) <+: x
        by_cases hi : idx > max_size / 2 - 200
        · rw [if_pos hi]; exact List.take_prefix idx x
        · rw [if_neg hi]
  · rw [if_neg hc]
    have hk : max_newlines / 2 < (splitOnNl x).length := by
      rw [splitOnNl_length]
      omega
    have hdec := joinNl_take_drop (splitOnNl x) (max_newlines / 2) (by norm_num [max_newlines]) hk
    rw [joinNl_splitOnNl] at hdec
    exact ⟨10 :: joinNl ((splitOnNl x).drop (max_newlines / 2)), hdec.symm⟩

theorem trim_beginning_count (x : List Nat) :
    (trim_beginning x).count 10 < max_newlines / 2 := by
  unfold trim_beginning
  by_cases hc : x.count 10 < max_newlines / 2
  · rw [if_pos hc]
    cases h : lastNewlinePos x with
    | none => exact hc
    | some idx =>
        show (if idx > max_size / 2 - 200 then x.take idx else x).count 10 < max_newlines / 2
        by_cases hi : idx > max_size / 2 - 200
        · rw [if_pos hi]
          exact Nat.lt_of_le_of_lt (List.Sublist.count_le (List.take_sublist idx x) 10) hc
        · rw [if_neg hi]; exact hc
  · rw [if_neg hc]
    have hne : (splitOnNl x).take (max_newlines / 2) ≠ [] := by
      intro hh
      rcases List.take_eq_nil_iff.mp hh with h1 | h1
      · norm_num [max_newlines] at h1
      · exact splitOnNl_ne_nil x h1
    rw [joinNl_count _ hne (fun p hp => splitOnNl_parts_count x p (List.mem_of_mem_take hp))]
    have hlt : ((splitOnNl x).take (max_newlines / 2)).length ≤ max_newlines / 2 :=
      List.length_take_le _ _
    have hm : max_newlines / 2 = 50 := rfl
    omega

theorem trim_ending_sub (x : List Nat) : trim_ending x <:+ x := by
  unfold trim_ending
  by_cases hc : x.count 10 < max_newlines / 2
  · rw [if_pos hc]
    cases h : firstNewlinePos x with
    | none => exact List.suffix_refl x
    | some idx =>
        show (if idx < 200 then x.drop (idx + 1) else x) <:+ x
        by_cases hi : idx < 200
        · rw [if_pos hi]; exact List.drop_suffix _ x
        · rw [if_neg hi]
  · rw [if_neg hc]
    have hlen : (splitOnNl x).length = x.count 10 + 1 := splitOnNl_length x
    have hk0 : 0 < (splitOnNl x).length - max_newlines / 2 := by
      have hm : max_newlines / 2 = 50 := rfl
      omega
    have hk : (splitOnNl x).length - max_newlines / 2 < (splitOnNl x).length := by
      have hm : max_newlines / 2 = 50 := rfl
      omega
    have hdec := joinNl_take_drop (splitOnNl x) _ hk0 hk
    rw [joinNl_splitOnNl] at hdec
    refine ⟨joinNl ((splitOnNl x).take ((splitOnNl x).length - max_newlines / 2)) ++ [10], ?_⟩
    rw [List.append_assoc]
    exact hdec.symm

theorem trim_ending_count (x : List Nat) :
    (trim_ending x).count 10 < max_newlines / 2 := by
  unfold trim_ending
  by_cases hc : x.count 10 < max_newlines / 2
  · rw [if_pos hc]
    cases h : firstNewlinePos x with
    | none => exact hc
    | some idx =>
        show (if idx < 200 then x.drop (idx + 1) else x).count 10 < max_newlines / 2
        by_cases hi : idx < 200
        · rw [if_pos hi]
          exact Nat.lt_of_le_of_lt (List.Sublist.count_le (List.drop_sublist _ x) 10) hc
        · rw [if_neg hi]; exact hc
  · rw [if_neg hc]
    have hlen : (splitOnNl x).length = x.count 10 + 1 := splitOnNl_length x
    have hm : max_newlines / 2 = 50 := rfl
    have hne : (splitOnNl x).drop ((splitOnNl x).length - max_newlines / 2) ≠ [] := by
      intro hh
      have := congrArg List.length hh
      rw [List.length_drop] at this
      simp at this
      omega
    rw [joinNl_count _ hne (fun p hp => splitOnNl_parts_count x p (List.mem_of_mem_drop hp))]
    rw [List.length_drop]
    omega

/-- Inversion of the `bigText` case of `process_output_file`: what the
pieces are and which branch conditions must have held. -/
theorem process_big_inversion (bytes b e : List Nat) (om : Int)
    (h : process_output_file (FileInput.fileInput bytes) =
      Except.ok (FileReport.bigText b om e)) :
    b = trim_beginning (bytes.take (max_size / 2)) ∧
    e = trim_ending (bytes.drop (bytes.length - max_size / 2)) ∧
    om = (bytes.length : Int) - b.length - e.length ∧
    max_size / 2 ≤ bytes.length ∧
    (bytes.length < max_size → max_newlines ≤ bytes.count 10) := by
  simp only [process_output_file] at h
  by_cases h1 : (bytes.take 1024).any unprintableByte = true
  · rw [if_pos h1] at h
    exact absurd h (by simp)
  · rw [if_neg h1] at h
    by_cases h2 : bytes.length = 0
    · rw [if_pos h2] at h
      exact absurd h (by simp)
    · rw [if_neg h2] at h
      by_cases h3 : bytes.length < max_size ∧ bytes.count 10 < max_newlines
      · rw [if_pos h3] at h
        exact absurd h (by simp)
      · rw [if_neg h3] at h
        by_cases h4 : bytes.length < max_size / 2
        · rw [if_pos h4] at h
          exact absurd h (by simp)
        · rw [if_neg h4] at h
          simp only [Except.ok.injEq, FileReport.bigText.injEq] at h
          obtain ⟨hb, hom, he⟩ := h
          refine ⟨hb.symm, he.symm, ?_, Nat.not_lt.mp h4, ?_⟩
          · rw [← hom, hb, he]
          · intro hlt
            by_contra hcnt
            exact h3 ⟨hlt, Nat.not_le.mp hcnt⟩

/-- A `bigText` report never has a negative omitted-byte count: the trimmed
head is a prefix of the file with at most 49 newlines, the trimmed tail is a
suffix with at most 49 newlines, and on an overlapping configuration the
whole file would then contain fewer than the 100 newlines that forced the
head/tail form. -/
theorem omitted_nonneg (bytes b e : List Nat) (om : Int)
    (h : process_output_file (FileInput.fileInput bytes) =
      Except.ok (FileReport.bigText b om e)) : 0 ≤ om := by
  obtain ⟨hb, he, hom, hge, hcnt⟩ := process_big_inversion bytes b e om h
  have hbpre : b <+: bytes := by
    rw [hb]
    exact (trim_beginning_sub _).trans (List.take_prefix _ _)
  have hesuf : e <:+ bytes := by
    rw [he]
    exact (trim_ending_sub _).trans (List.drop_suffix _ _)
  have hbcnt : b.count 10 < max_newlines / 2 := by rw [hb]; exact trim_beginning_count _
  have hecnt : e.count 10 < max_newlines / 2 := by rw [he]; exact trim_ending_count _
  rw [hom]
  have key : b.length + e.length ≤ bytes.length := by
    by_cases hbig : max_size ≤ bytes.length
    · have hb5 : b.length ≤ max_size / 2 := by
        calc b.length ≤ (bytes.take (max_size / 2)).length := by
              rw [hb]; exact (trim_beginning_sub _).length_le
          _ ≤ max_size / 2 := List.length_take_le _ _
      have he5 : e.length ≤ max_size / 2 := by
        calc e.length ≤ (bytes.drop (bytes.length - max_size / 2)).length := by
              rw [he]; exact (trim_ending_sub _).length_le
          _ ≤ max_size / 2 := by rw [List.length_drop]; omega
      have hms : max_size / 2 + max_size / 2 = max_size := rfl
      omega
    · push_neg at hbig
      have hcnt2 : max_newlines ≤ bytes.count 10 := hcnt hbig
      by_contra hgt
      push_neg at hgt
      obtain ⟨u, hu⟩ := hbpre
      obtain ⟨t, ht⟩ := hesuf
      have hlenu : b.length + u.length = bytes.length := by rw [← hu]; simp
      have hlent : t.length + e.length = bytes.length := by rw [← ht]; simp
      have hcount : bytes.count 10 = b.count 10 + u.count 10 := by
        rw [← hu, List.count_append]
      have hud : u = e.drop (b.length - t.length) := by
        have hu2 : u = bytes.drop b.length := by rw [← hu, List.drop_left]
        have he2 : e = bytes.drop t.length := by rw [← ht, List.drop_left]
        rw [hu2, he2, List.drop_drop]
        congr 1
        omega
      have hucount : u.count 10 ≤ e.count 10 := by
        rw [hud]
        exact List.Sublist.count_le (List.drop_sublist _ _) 10
      have hm : max_newlines = 100 := rfl
      have hm2 : max_newlines / 2 = 50 := rfl
      omega
  omega

/-- C4: a zero-length file is Empty; a file whose first-KB sample holds an
unprintable byte is Binary; a non-empty text file shorter than 10000 bytes
with fewer than 100 newlines is SmallText carrying its full contents. -/
theorem c4_classification (bytes : List Nat) :
    process_output_file (FileInput.fileInput []) =
      Except.ok (FileReport.other "empty file") ∧
    ((bytes.take 1024).any unprintableByte = true →
      process_output_file (FileInput.fileInput bytes) =
        Except.ok (FileReport.other "binary file")) ∧
    ((bytes.take 1024).any unprintableByte = false → 0 < bytes.length →
      bytes.length < max_size → bytes.count 10 < max_newlines →
      process_output_file (FileInput.fileInput bytes) =
        Except.ok (FileReport.okText bytes)) := by
  refine ⟨rfl, ?_, ?_⟩
  · intro h
    simp only [process_output_file]
    rw [if_pos h]
  · intro h1 h2 h3 h4
    simp only [process_output_file]
    rw [if_neg (by simp [h1]), if_neg (by omega), if_pos ⟨h3, h4⟩]

theorem any_replicate_false (p : Nat → Bool) (n a : Nat) (h : p a = false) :
    (List.replicate n a).any p = false := by
  induction n with
  | zero => rfl
  | succ n ih => rw [List.replicate_succ, List.any_cons, h, ih]; rfl

theorem findNlIdx_replicate_none (n a : Nat) (h : a ≠ 10) :
    findNlIdx (List.replicate n a) = none := by
  induction n with
  | zero => rfl
  | succ n ih =>
      rw [List.replicate_succ,
        show findNlIdx (a :: List.replicate n a) =
          if a = 10 then some 0 else (findNlIdx (List.replicate n a)).map (fun j => j + 1)
          from rfl,
        if_neg h, ih]
      rfl

theorem splitOnNl_replicate_nl (n : Nat) :
    splitOnNl (List.replicate n 10) = List.replicate (n + 1) [] := by
  induction n with
  | zero => rfl
  | succ n ih =>
      have hsplit : splitOnNl (10 :: List.replicate n 10) =
          [] :: splitOnNl (List.replicate n 10) := by simp [splitOnNl]
      rw [List.replicate_succ, hsplit, ih]
      simp [List.replicate_succ]

theorem joinNl_replicate_nil (k : Nat) :
    joinNl (List.replicate (k + 1) ([] : List Nat)) = List.replicate k 10 := by
  induction k with
  | zero => rfl
  | succ k ih =>
      rw [List.replicate_succ, joinNl_cons [] _ (by simp), ih]
      simp [List.replicate_succ]

/-- C4 witness: the null-byte file is Binary, and a 9999-byte file with 50
newlines is SmallText with its full contents. -/
theorem c4_witness :
    (([0] : List Nat).take 1024).any unprintableByte = true ∧
    process_output_file (FileInput.fileInput [0]) =
      Except.ok (FileReport.other "binary file") ∧
    ((List.replicate 50 10 ++ List.replicate 9949 97).take 1024).any unprintableByte
      = false ∧
    0 < (List.replicate 50 10 ++ List.replicate 9949 97).length ∧
    (List.replicate 50 10 ++ List.replicate 9949 97).length < max_size ∧
    (List.replicate 50 10 ++ List.replicate 9949 97).count 10 < max_newlines ∧
    process_output_file (FileInput.fileInput (List.replicate 50 10 ++ List.replicate 9949 97)) =
      Except.ok (FileReport.okText (List.replicate 50 10 ++ List.replicate 9949 97)) := by
  have hbin : (([0] : List Nat).take 1024).any unprintableByte = true := by decide
  have h1 : ((List.replicate 50 10 ++ List.replicate 9949 97).take 1024).any unprintableByte
      = false := by
    rw [show (1024 : Nat) = (List.replicate 50 (10 : Nat)).length + 974 from by simp,
      List.take_append, List.take_replicate, List.any_append,
      any_replicate_false _ _ _ (by decide), any_replicate_false _ _ _ (by decide)]
    rfl
  have h2 : 0 < (List.replicate 50 10 ++ List.replicate 9949 97).length := by
    rw [List.length_append, List.length_replicate, List.length_replicate]
    decide
  have h3 : (List.replicate 50 10 ++ List.replicate 9949 97).length < max_size := by
    rw [List.length_append, List.length_replicate, List.length_replicate]
    decide
  have h4 : (List.replicate 50 10 ++ List.replicate 9949 97).count 10 < max_newlines := by
    rw [List.count_append, List.count_replicate, List.count_replicate]
    decide
  exact ⟨hbin, (c4_classification [0]).2.1 hbin, h1, h2, h3, h4,
    (c4_classification _).2.2 h1 h2 h3 h4⟩

/-- C5: whenever the classifier returns the LargeText head/tail form, the
captured head, the omitted-byte count and the captured tail sum exactly to
the file's total length. -/
theorem c5_omitted_sum (bytes b e : List Nat) (om : Int)
    (h : process_output_file (FileInput.fileInput bytes) =
      Except.ok (FileReport.bigText b om e)) :
    (b.length : Int) + om + e.length = bytes.length := by
  obtain ⟨-, -, hom, -, -⟩ := process_big_inversion bytes b e om h
  rw [hom]
  ring

/-- C5 witness: a 10000-byte file with no newlines splits into a 5000-byte
head, a 5000-byte tail and 0 omitted bytes. -/
theorem c5_witness :
    process_output_file (FileInput.fileInput (List.replicate 10000 97)) =
      Except.ok (FileReport.bigText (List.replicate 5000 97) 0 (List.replicate 5000 97)) ∧
    (((List.replicate 5000 97).length : Int) + 0 + ((List.replicate 5000 97).length : Int) =
      ((List.replicate 10000 97).length : Int)) := by
  have hlen : (List.replicate 10000 (97 : Nat)).length = 10000 := List.length_replicate _ _
  have hres : process_output_file (FileInput.fileInput (List.replicate 10000 97)) =
      Except.ok (FileReport.bigText (List.replicate 5000 97) 0 (List.replicate 5000 97)) := by
    simp only [process_output_file]
    rw [if_neg ?hbin, if_neg ?hzero, if_neg ?hsmall, if_neg ?hseek]
    case hbin =>
      intro hh
      rw [List.take_replicate, any_replicate_false _ _ _ (by decide)] at hh
      exact absurd hh (by decide)
    case hzero => rw [hlen]; decide
    case hsmall =>
      intro hh
      rw [hlen] at hh
      exact absurd hh.1 (by decide)
    case hseek => rw [hlen]; decide
    have htake : (List.replicate 10000 (97 : Nat)).take (max_size / 2) =
        List.replicate 5000 97 := by
      rw [show max_size / 2 = 5000 from rfl, List.take_replicate,
        show min 5000 10000 = 5000 from by decide]
    have hdrop : (List.replicate 10000 (97 : Nat)).drop
        ((List.replicate 10000 97).length - max_size / 2) = List.replicate 5000 97 := by
      rw [hlen, show (10000 - max_size / 2 : Nat) = 5000 from by decide,
        List.drop_replicate, show (10000 - 5000 : Nat) = 5000 from by decide]
    have hbeg : trim_beginning (List.replicate 5000 97) = List.replicate 5000 97 := by
      unfold trim_beginning
      have hcnt : (List.replicate 5000 (97 : Nat)).count 10 = 0 := by
        rw [List.count_replicate]
        decide
      rw [if_pos (by rw [hcnt]; decide)]
      have hlast : lastNewlinePos (List.replicate 5000 (97 : Nat)) = none := by
        unfold lastNewlinePos
        rw [List.reverse_replicate, findNlIdx_replicate_none _ _ (by decide)]
      rw [hlast]
    have hend : trim_ending (List.replicate 5000 97) = List.replicate 5000 97 := by
      unfold trim_ending
      have hcnt : (List.replicate 5000 (97 : Nat)).count 10 = 0 := by
        rw [List.count_replicate]
        decide
      rw [if_pos (by rw [hcnt]; decide)]
      have hfirst : firstNewlinePos (List.replicate 5000 (97 : Nat)) = none :=
        findNlIdx_replicate_none _ _ (by decide)
      rw [hfirst]
    rw [htake, hdrop, hbeg, hend]
    simp only [Except.ok.injEq, FileReport.bigText.injEq, List.length_replicate, hlen]
    exact ⟨trivial, by norm_num, trivial⟩
  exact ⟨hres, c5_omitted_sum _ _ _ _ hres⟩

/-- C9 (amended): a text file shorter than 10000 bytes with at least 100
newlines (and at least 5000 bytes — any shorter and the tail seek errors
out) is classified in the LargeText head/tail form rather than SmallText,
but the reported omitted-byte count is never negative: trimming shrinks the
overlapping head and tail reads below the file length. -/
theorem c9_small_bigtext (bytes : List Nat) :
    ((bytes.take 1024).any unprintableByte = false → max_size / 2 ≤ bytes.length →
      bytes.length < max_size → max_newlines ≤ bytes.count 10 →
      ∃ b om e, process_output_file (FileInput.fileInput bytes) =
        Except.ok (FileReport.bigText b om e) ∧ 0 ≤ om) ∧
    (∀ b om e, process_output_file (FileInput.fileInput bytes) =
      Except.ok (FileReport.bigText b om e) → 0 ≤ om) := by
  constructor
  · intro h1 h2 h3 h4
    have hms : max_size / 2 = 5000 := rfl
    have hres : process_output_file (FileInput.fileInput bytes) =
        Except.ok (FileReport.bigText
          (trim_beginning (bytes.take (max_size / 2)))
          ((bytes.length : Int) -
            (trim_beginning (bytes.take (max_size / 2))).length -
            (trim_ending (bytes.drop (bytes.length - max_size / 2))).length)
          (trim_ending (bytes.drop (bytes.length - max_size / 2)))) := by
      simp only [process_output_file]
      rw [if_neg (by simp [h1]), if_neg (by omega), if_neg ?hsmall, if_neg (by omega)]
      case hsmall =>
        intro hh
        exact absurd h4 (Nat.not_le.mpr hh.2)
    exact ⟨_, _, _, hres, omitted_nonneg bytes _ _ _ hres⟩
  · intro b om e h
    exact omitted_nonneg bytes b e om h

/-- C9 counterexample: a 5000-byte all-newline file is in scope of the claim
(shorter than 10000 bytes, at least 100 newlines, classified LargeText), yet
its reported omitted-byte count is 4902 — positive, not negative. -/
theorem c9_counterexample :
    (List.replicate 5000 10).length < max_size ∧
    max_newlines ≤ (List.replicate 5000 10).count 10 ∧
    process_output_file (FileInput.fileInput (List.replicate 5000 10)) =
      Except.ok (FileReport.bigText (List.replicate 49 10) 4902 (List.replicate 49 10)) ∧
    ¬ (4902 : Int) < 0 := by
  have hlen : (List.replicate 5000 (10 : Nat)).length = 5000 := List.length_replicate _ _
  have hcnt : (List.replicate 5000 (10 : Nat)).count 10 = 5000 := by
    rw [List.count_replicate]
    decide
  refine ⟨by rw [hlen]; decide, by rw [hcnt]; decide, ?_, by decide⟩
  simp only [process_output_file]
  rw [if_neg ?hbin, if_neg ?hzero, if_neg ?hsmall, if_neg ?hseek]
  case hbin =>
    intro hh
    rw [List.take_replicate, any_replicate_false _ _ _ (by decide)] at hh
    exact absurd hh (by decide)
  case hzero => rw [hlen]; decide
  case hsmall =>
    intro hh
    rw [hcnt] at hh
    exact absurd hh.2 (by decide)
  case hseek => rw [hlen]; decide
  have hsplit : splitOnNl (List.replicate 5000 (10 : Nat)) = List.replicate 5001 [] :=
    splitOnNl_replicate_nl 5000
  have htake : (List.replicate 5000 (10 : Nat)).take (max_size / 2) =
      List.replicate 5000 10 := by
    rw [show max_size / 2 = 5000 from rfl, List.take_replicate,
      show min 5000 5000 = 5000 from by decide]
  have hdrop : (List.replicate 5000 (10 : Nat)).drop
      ((List.replicate 5000 10).length - max_size / 2) = List.replicate 5000 10 := by
    rw [hlen, show (5000 - max_size / 2 : Nat) = 0 from by decide, List.drop_zero]
  have hbeg : trim_beginning (List.replicate 5000 10) = List.replicate 49 10 := by
    unfold trim_beginning
    rw [if_neg (by rw [hcnt]; decide)]
    rw [hsplit, show max_newlines / 2 = 50 from rfl, List.take_replicate,
      show min 50 5001 = 50 from by decide, show (50 : Nat) = 49 + 1 from rfl,
      joinNl_replicate_nil]
  have hend : trim_ending (List.replicate 5000 10) = List.replicate 49 10 := by
    unfold trim_ending
    rw [if_neg (by rw [hcnt]; decide)]
    rw [hsplit,
      show (List.replicate 5001 ([] : List Nat)).length - max_newlines / 2 = 4951 from by
        rw [List.length_replicate]; decide,
      List.drop_replicate, show (5001 - 4951 : Nat) = 50 from by decide,
      show (50 : Nat) = 49 + 1 from rfl, joinNl_replicate_nil]
  rw [htake, hdrop, hbeg, hend]
  simp only [Except.ok.injEq, FileReport.bigText.injEq, List.length_replicate, hlen]
  exact ⟨trivial, by norm_num, trivial⟩

/-- C9 witness: the 5000-byte all-newline file satisfies every hypothesis of
the amended claim and indeed gets a LargeText report with a nonnegative
omitted count. -/
theorem c9_witness :
    ((List.replicate 5000 10).take 1024).any unprintableByte = false ∧
    max_size / 2 ≤ (List.replicate 5000 10).length ∧
    (List.replicate 5000 10).length < max_size ∧
    max_newlines ≤ (List.replicate 5000 10).count 10 ∧
    (∃ b om e, process_output_file (FileInput.fileInput (List.replicate 5000 10)) =
      Except.ok (FileReport.bigText b om e) ∧ 0 ≤ om) := by
  have ha : ((List.replicate 5000 (10 : Nat)).take 1024).any unprintableByte = false := by
    rw [List.take_replicate, any_replicate_false _ _ _ (by decide)]
  have hb : max_size / 2 ≤ (List.replicate 5000 (10 : Nat)).length := by
    rw [List.length_replicate]
    decide
  have hc : (List.replicate 5000 (10 : Nat)).length < max_size := by
    rw [List.length_replicate]
    decide
  have hd : max_newlines ≤ (List.replicate 5000 (10 : Nat)).count 10 := by
    rw [List.count_replicate]
    decide
  exact ⟨ha, hb, hc, hd, (c9_small_bigtext _).1 ha hb hc hd⟩

/-- C2 witness: a process exiting with code 0 shortly after SIGINT is still
a Failed result at a concrete command and timeout. -/
theorem c2_witness :
    run_test_with_timeout "true" 5 ⟨none, some 0, none, false⟩ ≠ Result.pass ∧
    (∃ d, run_test_with_timeout "true" 5 ⟨none, some 0, none, false⟩ = Result.fail d) :=
  ⟨(c2_graceful_stage_failed "true" 5 0 none false).2.1,
   ⟨_, (c2_graceful_stage_failed "true" 5 0 none false).1⟩⟩

/-- C10 witness: dropping a concrete False-valued gnu flag changes the
built command line. -/
theorem c10_witness :
    build_command_gnu "cmd" ([] ++ ("a", ArgValue.boolVal false) :: []) ≠
      build_command_gnu "cmd" ([] ++ []) :=
  (c10_false_flag "cmd" "a" [] []).2.2.2

end Retester
